import Mathlib

/-!
Verification of the real-time audio pipeline of the Apollo voice agent
(source files `src/utils/audioUtils.ts`, `src/components/VoiceAgent.tsx`
and the second `VoiceAgent` variant shipped in the repository).

Samples are modelled as exact rationals (JavaScript numbers are floats,
but every constant and operation appearing in the source is exact at the
granularity the claims speak about), machine 16-bit integers as `ℤ`
together with the explicit wrap-around `% 65536` that an `Int16Array`
store performs, and byte buffers as `List ℕ`.
-/

/-! ### Data model: session state enums (from `src/types.ts`) -/

/-- `ConnectionState` from `src/types.ts`. -/
inductive ConnectionState where
  | DISCONNECTED
  | CONNECTING
  | CONNECTED
  | ERROR
deriving DecidableEq

/-- The `type` discriminant of `InfoCardData` (second `VoiceAgent` variant). -/
inductive CardType where
  | booking
  | status
  | bill
  | cancellation
  | reschedule
deriving DecidableEq

/-- `InfoCardData` record (second `VoiceAgent` variant). -/
structure InfoCardData where
  type : CardType
  title : String
  data : List (String × String)
deriving DecidableEq

/-- A doctor record, as produced by `DOCTORS_DATA` in `src/constants.ts`. -/
structure Doctor where
  name : String
  specialty : String
  location : String
  availability : String
deriving DecidableEq

/-! ### SampleCodec (from `src/utils/audioUtils.ts`) -/

/-- `Math.max(-1, Math.min(1, data[i]))` in `createPcmBlob`. -/
def clampSample (s : ℚ) : ℚ := max (-1) (min 1 s)

/-- `s < 0 ? s * 0x8000 : s * 0x7FFF` in `createPcmBlob`. -/
def scaleClamped (c : ℚ) : ℚ := if c < 0 then c * 32768 else c * 32767

/-- JavaScript number-to-integer conversion (ToIntegerOrInfinity):
truncation toward zero. -/
def truncJS (q : ℚ) : ℤ := if q < 0 then ⌈q⌉ else ⌊q⌋

/-- The wrap-around a store into an `Int16Array` element performs:
reduce modulo 2^16 into the signed range [-32768, 32767]. -/
def toInt16Storage (n : ℤ) : ℤ := (n + 32768) % 65536 - 32768

/-- One sample of `createPcmBlob`'s encoding loop
(`int16[i] = s < 0 ? s * 0x8000 : s * 0x7FFF` after clamping),
including the `Int16Array` storage conversion. -/
def encodeSample (s : ℚ) : ℤ := toInt16Storage (truncJS (scaleClamped (clampSample s)))

/-- One sample of `decodeAudioData`'s loop:
`channelData[i] = dataInt16[i * numChannels + channel] / 32768.0`. -/
def decodeSample (n : ℤ) : ℚ := (n : ℚ) / 32768

/-- Reinterpret two bytes as one little-endian signed 16-bit integer
(the view an `Int16Array` places over the underlying byte buffer). -/
def int16OfPair (lo hi : ℕ) : ℤ :=
  if lo + 256 * hi < 32768 then (lo + 256 * hi : ℕ) else (lo + 256 * hi : ℕ) - 65536

/-- `new Int16Array(data.buffer)`: the byte buffer read two bytes at a
time, little-endian.  A trailing odd byte never arises on this path
because the constructor throws first (see `decodeAudioData`). -/
def int16OfBytes : List ℕ → List ℤ
  | lo :: hi :: rest => int16OfPair lo hi :: int16OfBytes rest
  | _ => []

/-- Little-endian byte serialization of one stored 16-bit sample (the
byte view of the `Int16Array` handed to `arrayBufferToBase64`). -/
def int16ToBytes (n : ℤ) : List ℕ :=
  [((n % 65536).toNat) % 256, ((n % 65536).toNat) / 256]

/-- An `EncodedFrame`: the PCM byte payload of the blob produced by
`createPcmBlob` (base64 transcoding at the transport boundary is a
bijection and is elided), plus its MIME descriptor. -/
structure EncodedFrame where
  data : List ℕ
  mimeType : String
deriving DecidableEq

/-- `createPcmBlob(data)` from `src/utils/audioUtils.ts`: clamp, scale,
truncate each sample to 16-bit PCM, serialize little-endian. -/
def createPcmBlob (samples : List ℚ) : EncodedFrame :=
  { data := (samples.map encodeSample).flatMap int16ToBytes
    mimeType := "audio/pcm;rate=16000" }

/-- `decodeAudioData(data, ctx, sampleRate, numChannels)` from
`src/utils/audioUtils.ts`.  `new Int16Array(data.buffer)` throws a
`RangeError` when the byte length is odd; otherwise the bytes are read
as little-endian 16-bit integers, de-interleaved by channel and divided
by 32768.  `frameCount = dataInt16.length / numChannels` is a JavaScript
(possibly fractional) quotient; `ctx.createBuffer(numChannels,
frameCount, sampleRate)` converts it through the WebIDL `unsigned long`
rule to its integer part and throws a `NotSupportedError` when that
part is 0 (an `AudioBuffer` needs at least one frame), that is whenever
`⌊dataInt16.length / numChannels⌋ = 0` — which also covers the
non-finite quotients arising from `numChannels = 0`, converted to 0.
On the success path the loop's writes past the buffer length are
silently dropped by the typed array, so each channel effectively holds
`⌊dataInt16.length / numChannels⌋` samples. -/
def decodeAudioData (bytes : List ℕ) (numChannels : ℕ) : Except String (List (List ℚ)) :=
  if bytes.length % 2 ≠ 0 then
    .error "RangeError: byte length is not a multiple of Int16 element size"
  else if (int16OfBytes bytes).length / numChannels = 0 then
    .error "NotSupportedError: AudioBuffer requires at least one frame"
  else
    .ok ((List.range numChannels).map fun channel =>
      (List.range ((int16OfBytes bytes).length / numChannels)).map fun i =>
        decodeSample ((int16OfBytes bytes).getD (i * numChannels + channel) 0))

/-! ### Resampler

The second `VoiceAgent` variant calls `createPcmBlob(inputData,
inputCtx.sampleRate)`, a two-argument resampling variant whose
implementation file is not part of the sources; it is modelled from the
spec below. -/

/-- Modelled from the spec: the linear-interpolation resampler of the
two-argument `createPcmBlob` variant, absent from the sources.  If the
rates agree the block passes through unchanged; otherwise with
`rr = inputRate / targetRate` it produces `⌈inputLength / rr⌉` samples,
sample `i` interpolating between the inputs at `⌊i*rr⌋` and `⌈i*rr⌉`
(both clamped to `[0, inputLength-1]`) weighted by the fractional part
of `i*rr`. -/
def lerpResample (samples : List ℚ) (inputRate targetRate : ℕ) : List ℚ :=
  if inputRate = targetRate then samples
  else
    let rr : ℚ := (inputRate : ℚ) / targetRate
    let outLen : ℕ := (⌈(samples.length : ℚ) / rr⌉).toNat
    (List.range outLen).map fun (i : ℕ) =>
      let pos : ℚ := (i : ℚ) * rr
      let lowIdx : ℕ := min (⌊pos⌋).toNat (samples.length - 1)
      let highIdx : ℕ := min (⌈pos⌉).toNat (samples.length - 1)
      let a := samples.getD lowIdx 0
      let b := samples.getD highIdx 0
      a + (b - a) * (pos - ⌊pos⌋)

/-- Modelled from the spec: `resample` quantizes the interpolated block
via the SampleCodec scaling rule (identical to the source's
`createPcmBlob` per-sample conversion). -/
def resample (samples : List ℚ) (inputRate targetRate : ℕ) : List ℤ :=
  (lerpResample samples inputRate targetRate).map encodeSample

/-- Modelled from the spec: the two-argument `createPcmBlob(inputData,
inputRate)` called by the second `VoiceAgent` variant — resample to the
fixed 16 kHz target, then serialize as in the source `createPcmBlob`. -/
def createPcmBlobRt (samples : List ℚ) (inputRate : ℕ) : EncodedFrame :=
  { data := (resample samples inputRate 16000).flatMap int16ToBytes
    mimeType := "audio/pcm;rate=16000" }

/-! ### PlaybackScheduler (the `onmessage` audio path and interruption
path of both `VoiceAgent` variants) -/

/-- The playback-scheduling state: the `nextStartTimeRef` cursor and the
`scheduledSourcesRef` set, each scheduled source recorded as its
(startTime, duration) pair.  The JavaScript `Set` preserves insertion
order, modelled as a list. -/
structure SchedState where
  nextStartTime : ℚ
  scheduled : List (ℚ × ℚ)
deriving DecidableEq

/-- The scheduling step of `onmessage` for one decoded buffer:
`startTime = Math.max(now, nextStartTimeRef.current)` (the second
variant spells the same function as
`nextStartTime < now ? now : nextStartTime`), `sourceNode.start(startTime)`,
`nextStartTimeRef.current = startTime + audioBuffer.duration`,
`scheduledSourcesRef.current.add(sourceNode)`. -/
def enqueue (now dur : ℚ) (s : SchedState) : SchedState :=
  { nextStartTime := max now s.nextStartTime + dur
    scheduled := s.scheduled ++ [(max now s.nextStartTime, dur)] }

/-- The interruption path of `onmessage`
(`message.serverContent?.interrupted`): `stop()` every scheduled source,
clear the set, reset `nextStartTimeRef.current = outputCtx.currentTime`.
The second component is the list of sources that received a `stop()`
call. -/
def flush (now : ℚ) (s : SchedState) : SchedState × List (ℚ × ℚ) :=
  ({ nextStartTime := now, scheduled := [] }, s.scheduled)

/-- Fold `enqueue` over a sequence of (arrival time, duration) pairs. -/
def enqueueAll (s : SchedState) : List (ℚ × ℚ) → SchedState
  | [] => s
  | (now, dur) :: rest => enqueueAll (enqueue now dur s) rest

/-- The "enqueues arrive faster than playback consumes them" premise:
every arrival in the sequence happens no later than the cursor standing
when it is processed. -/
def fastArrivalB (s : SchedState) : List (ℚ × ℚ) → Bool
  | [] => true
  | (now, dur) :: rest =>
      decide (now ≤ s.nextStartTime) && fastArrivalB (enqueue now dur s) rest

/-- The back-to-back segment layout starting at time `t` for a list of
durations. -/
def segsFrom (t : ℚ) : List ℚ → List (ℚ × ℚ)
  | [] => []
  | d :: ds => (t, d) :: segsFrom (t + d) ds

/-! ### SessionController state (both `VoiceAgent` variants) -/

/-- The mutable state of the `VoiceAgent` component that the claims
touch: React state (`connectionState`, `errorMessage`, `infoCard`,
`activeDoctor`) and the audio refs.  `stream`, `processor` and
`inputSource` record whether the corresponding ref currently holds a
resource. -/
structure AgentState where
  connectionState : ConnectionState
  errorMessage : Option String
  infoCard : Option InfoCardData
  activeDoctor : Option Doctor
  stream : Bool
  processor : Bool
  inputSource : Bool
  sched : SchedState
deriving DecidableEq

/-- `if (streamRef.current) { stop tracks; streamRef.current = null }`. -/
def stopStream (s : AgentState) : AgentState :=
  if s.stream then { s with stream := false } else s

/-- `if (processorRef.current) { disconnect; processorRef.current = null }`. -/
def stopProcessor (s : AgentState) : AgentState :=
  if s.processor then { s with processor := false } else s

/-- `if (inputSourceRef.current) { disconnect; inputSourceRef.current = null }`. -/
def stopInputSource (s : AgentState) : AgentState :=
  if s.inputSource then { s with inputSource := false } else s

/-- `stopAudio()` from both `VoiceAgent` variants: release the stream,
processor and input source if held, `stop()` every scheduled source
(each inside `try { } catch { }`, so already-finished sources are a
silent no-op), clear the set and zero the cursor.  The second component
is the list of sources that received a `stop()` call. -/
def stopAudio (s : AgentState) : AgentState × List (ℚ × ℚ) :=
  (( fun s3 => { s3 with sched := { nextStartTime := 0, scheduled := [] } })
      (stopInputSource (stopProcessor (stopStream s))),
   (stopInputSource (stopProcessor (stopStream s))).sched.scheduled)

/-- The synchronous prefix of `startSession()` in the second
`VoiceAgent` variant: the double-start guard
`if (connectionState === CONNECTING || connectionState === CONNECTED) return;`
followed (when it does not fire) by the state resets executed before the
first `await`. -/
def startSessionBegin (s : AgentState) : AgentState :=
  if s.connectionState = ConnectionState.CONNECTING ∨
     s.connectionState = ConnectionState.CONNECTED then s
  else
    { s with connectionState := ConnectionState.CONNECTING
             errorMessage := none
             infoCard := none
             activeDoctor := none }

/-- The inbound-audio branch of `onmessage` in the second `VoiceAgent`
variant: decode the frame inside `try { } catch (e) { console.error(e) }`;
on success schedule the buffer (duration = frameCount / 24000 for the
mono 24 kHz output context), on failure log and leave all state alone.
The second component is the logged error, if any. -/
def onAudioFrame (bytes : List ℕ) (now : ℚ) (s : AgentState) :
    AgentState × Option String :=
  match decodeAudioData bytes 1 with
  | .error e => (s, some e)
  | .ok channels =>
      ({ s with sched := enqueue now (((channels.headD []).length : ℚ) / 24000) s.sched },
       none)

/-! ### CaptureStream (the `processor.onaudioprocess` handler) -/

/-- One invocation of the `processor.onaudioprocess` closure installed
at session start: `if (isMuted) return;` then build the PCM blob from
the captured block and hand it to the transport.  The `isMuted` the
closure reads is the `useState` constant captured from the render in
which the handler was created — the component state at install time,
not the state at the moment the block is delivered.  The result is the
frame sent, `none` when the block is dropped. -/
def onAudioProcessBlock (mutedAtInstall : Bool) (block : List ℚ) (inputRate : ℕ) :
    Option EncodedFrame :=
  if mutedAtInstall then none else some (createPcmBlobRt block inputRate)

/-- The frames sent over a run of capture callbacks within one session.
Each delivered block is tagged with the component's `isMuted` state at
delivery time (as the user toggles it), but every block goes through
the one closure installed at session start, which consults only the
flag it captured then — the per-block tag is invisible to it. -/
def processBlocks (mutedAtInstall : Bool) (inputRate : ℕ) :
    List (Bool × List ℚ) → List EncodedFrame
  | [] => []
  | (_, block) :: rest =>
      match onAudioProcessBlock mutedAtInstall block inputRate with
      | none => processBlocks mutedAtInstall inputRate rest
      | some f => f :: processBlocks mutedAtInstall inputRate rest

/-! ### Helper lemmas -/

theorem ceil_negFull : ⌈(-32768 : ℚ)⌉ = (-32768 : ℤ) := by
  exact_mod_cast Int.ceil_intCast (α := ℚ) (-32768)

theorem clampSample_mem (s : ℚ) : -1 ≤ clampSample s ∧ clampSample s ≤ 1 := by
  unfold clampSample
  constructor
  · exact le_max_left _ _
  · exact max_le (by norm_num) (min_le_left _ _)

theorem clampSample_eq_self {s : ℚ} (h1 : -1 ≤ s) (h2 : s ≤ 1) :
    clampSample s = s := by
  unfold clampSample
  rw [min_eq_right h2, max_eq_right h1]

theorem truncJS_scale_bounds {c : ℚ} (h1 : -1 ≤ c) (h2 : c ≤ 1) :
    -32768 ≤ truncJS (scaleClamped c) ∧ truncJS (scaleClamped c) ≤ 32767 := by
  unfold truncJS scaleClamped
  by_cases hc : c < 0
  · rw [if_pos hc, if_pos (by nlinarith)]
    constructor
    · have : (-32768 : ℚ) ≤ c * 32768 := by nlinarith
      calc (-32768 : ℤ) = ⌈(-32768 : ℚ)⌉ := ceil_negFull.symm
        _ ≤ ⌈c * 32768⌉ := Int.ceil_le_ceil this
    · have : c * 32768 ≤ 0 := by nlinarith
      have h0 : ⌈c * 32768⌉ ≤ 0 := Int.ceil_le.mpr (by exact_mod_cast this)
      omega
  · push_neg at hc
    rw [if_neg (not_lt.mpr hc), if_neg (by nlinarith)]
    constructor
    · have h0 : (0 : ℤ) ≤ ⌊c * 32767⌋ := Int.floor_nonneg.mpr (by nlinarith)
      omega
    · have : c * 32767 ≤ 32767 := by nlinarith
      calc ⌊c * 32767⌋ ≤ ⌊(32767 : ℚ)⌋ := Int.floor_le_floor this
        _ = 32767 := by norm_num

theorem toInt16Storage_eq_self {n : ℤ} (h1 : -32768 ≤ n) (h2 : n ≤ 32767) :
    toInt16Storage n = n := by
  unfold toInt16Storage
  rw [Int.emod_eq_of_lt (by omega) (by omega)]
  omega

theorem encodeSample_eq_trunc (s : ℚ) :
    encodeSample s = truncJS (scaleClamped (clampSample s)) := by
  obtain ⟨h1, h2⟩ := clampSample_mem s
  obtain ⟨g1, g2⟩ := truncJS_scale_bounds h1 h2
  exact toInt16Storage_eq_self g1 g2

theorem int16OfBytes_length : ∀ bs : List ℕ, (int16OfBytes bs).length = bs.length / 2
  | [] => rfl
  | [_] => by simp [int16OfBytes]
  | _ :: _ :: rest => by
      simp only [int16OfBytes, List.length_cons, int16OfBytes_length rest]
      omega

theorem int16OfPair_bounds {lo hi : ℕ} (hlo : lo < 256) (hhi : hi < 256) :
    -32768 ≤ int16OfPair lo hi ∧ int16OfPair lo hi < 32768 := by
  unfold int16OfPair
  split <;> omega

theorem int16OfBytes_bounds : ∀ bs : List ℕ, (∀ b ∈ bs, b < 256) →
    ∀ n ∈ int16OfBytes bs, -32768 ≤ n ∧ n < 32768
  | [], _, n, hn => by simp [int16OfBytes] at hn
  | [_], _, n, hn => by simp [int16OfBytes] at hn
  | lo :: hi :: rest, hb, n, hn => by
      simp only [int16OfBytes, List.mem_cons] at hn
      rcases hn with h | h
      · subst h
        exact int16OfPair_bounds (hb lo (by simp)) (hb hi (by simp))
      · exact int16OfBytes_bounds rest (fun b m => hb b (by simp [m])) n h

theorem decodeSample_range {n : ℤ} (h1 : -32768 ≤ n) (h2 : n < 32768) :
    -1 ≤ decodeSample n ∧ decodeSample n < 1 := by
  have h1q : (-32768 : ℚ) ≤ (n : ℚ) := by exact_mod_cast h1
  have h2q : (n : ℚ) < 32768 := by exact_mod_cast h2
  unfold decodeSample
  constructor <;> linarith

theorem getD_int16_bound {l : List ℤ} (i : ℕ)
    (h : ∀ n ∈ l, -32768 ≤ n ∧ n < 32768) :
    -32768 ≤ l.getD i 0 ∧ l.getD i 0 < 32768 := by
  by_cases hi : i < l.length
  · rw [List.getD_eq_getElem l 0 hi]
    exact h _ (List.getElem_mem hi)
  · rw [List.getD_eq_default l 0 (le_of_not_lt hi)]
    norm_num

/-! ### C4 -/

/-- C4 (counterexample): the sample `s = 65533/65534` (just below full
scale) encodes by truncation to 32766 and decodes to 16383/16384, which
is farther from `s` than 1/32768 — the claimed round-trip bound of
1/32768 fails. -/
theorem roundtrip_one_lsb_counterexample :
    ¬ |decodeSample (encodeSample (65533/65534)) - 65533/65534| ≤ 1/32768 := by
  have h1 : encodeSample (65533/65534) = 32766 := by
    rw [encodeSample_eq_trunc, clampSample_eq_self (by norm_num) (by norm_num)]
    unfold truncJS scaleClamped
    rw [if_neg (by norm_num)]
    rw [if_neg (by norm_num)]
    norm_num [Int.floor_eq_iff]
  have h2 : decodeSample 32766 = 16383/16384 := by
    unfold decodeSample
    norm_num
  rw [h1, h2, abs_sub_comm,
    abs_of_nonneg (show (0 : ℚ) ≤ 65533/65534 - 16383/16384 by norm_num)]
  norm_num

/-- C4 (amended): for every sample `s` in [-1, 1], decoding the encoded
sample lands within 2/32768 of `s` (truncation toward zero rather than
rounding costs up to just under two decode steps for positive samples;
for non-positive samples the error stays below 1/32768). -/
theorem roundtrip_within_two_lsb (s : ℚ) (h1 : -1 ≤ s) (h2 : s ≤ 1) :
    |decodeSample (encodeSample s) - s| ≤ 2/32768 := by
  rw [encodeSample_eq_trunc, clampSample_eq_self h1 h2]
  unfold truncJS scaleClamped decodeSample
  by_cases hs : s < 0
  · rw [if_pos hs, if_pos (by nlinarith)]
    have ha : (s * 32768 : ℚ) ≤ ⌈s * 32768⌉ := Int.le_ceil _
    have hb : (⌈s * 32768⌉ : ℚ) < s * 32768 + 1 := Int.ceil_lt_add_one _
    rw [abs_of_nonneg (by linarith)]
    linarith
  · push_neg at hs
    rw [if_neg (not_lt.mpr hs), if_neg (by nlinarith)]
    have ha : (⌊s * 32767⌋ : ℚ) ≤ s * 32767 := Int.floor_le _
    have hb : (s * 32767 : ℚ) - 1 < ⌊s * 32767⌋ := Int.sub_one_lt_floor _
    rw [abs_of_nonpos (by linarith)]
    linarith

/-- Witness for C4 (amended) at `s = 1/2`. -/
theorem roundtrip_within_two_lsb_witness :
    -1 ≤ (1/2 : ℚ) ∧ (1/2 : ℚ) ≤ 1 ∧
    |decodeSample (encodeSample (1/2)) - 1/2| ≤ 2/32768 :=
  ⟨by norm_num, by norm_num, roundtrip_within_two_lsb (1/2) (by norm_num) (by norm_num)⟩

/-! ### C10 -/

/-- C10: for every input sample `s`, clamping to [-1, 1] and scaling (by
32768 when negative, by 32767 when non-negative) and truncating lies in
the signed 16-bit range [-32768, 32767], so the `Int16Array` store never
wraps, and the full-scale inputs -1 and 1 map exactly to -32768 and
32767. -/
theorem encode_never_wraps (s : ℚ) :
    -32768 ≤ truncJS (scaleClamped (clampSample s)) ∧
    truncJS (scaleClamped (clampSample s)) ≤ 32767 ∧
    encodeSample s = truncJS (scaleClamped (clampSample s)) ∧
    encodeSample (-1) = -32768 ∧
    encodeSample 1 = 32767 := by
  obtain ⟨h1, h2⟩ := clampSample_mem s
  obtain ⟨g1, g2⟩ := truncJS_scale_bounds h1 h2
  refine ⟨g1, g2, encodeSample_eq_trunc s, ?_, ?_⟩
  · rw [encodeSample_eq_trunc, clampSample_eq_self (by norm_num) (by norm_num)]
    unfold truncJS scaleClamped
    norm_num [ceil_negFull]
  · rw [encodeSample_eq_trunc, clampSample_eq_self (by norm_num) (by norm_num)]
    unfold truncJS scaleClamped
    norm_num

/-! ### C7 -/

/-- C7 (counterexample): a 6-byte frame decoded with `channelCount = 2`
succeeds (three 16-bit words give a fractional frame count of 1.5,
truncated to one frame per channel) even though 6 is not a multiple of
`2 * channelCount = 4` — the claimed failure condition does not hold. -/
theorem decode_fails_iff_counterexample :
    (decodeAudioData [0, 0, 0, 0, 0, 0] 2).isOk = true ∧
    ¬ ((6 : ℕ) % (2 * 2) = 0) := by
  constructor
  · rfl
  · decide

/-- C7 (amended): `decodeAudioData` fails exactly when the byte length
is odd (the `Int16Array` view rejects it) or when the truncated frame
count `⌊(len/2)/channelCount⌋` is 0 (fewer 16-bit words than channels —
`createBuffer` rejects a zero-length buffer); it never checks
divisibility by `2 * channelCount`.  Otherwise it succeeds,
de-interleaving `⌊(len/2)/channelCount⌋` samples per channel, each in
[-1, 1). -/
theorem decode_fails_iff_odd (bytes : List ℕ) (ch : ℕ) (hch : 0 < ch)
    (hb : ∀ b ∈ bytes, b < 256) :
    ((decodeAudioData bytes ch).isOk = true ↔
      (bytes.length % 2 = 0 ∧ ch ≤ bytes.length / 2)) ∧
    ∀ chans, decodeAudioData bytes ch = .ok chans →
      chans.length = ch ∧
      ∀ c ∈ chans, c.length = bytes.length / 2 / ch ∧
        ∀ q ∈ c, -1 ≤ q ∧ q < 1 := by
  have hlen : (int16OfBytes bytes).length = bytes.length / 2 :=
    int16OfBytes_length bytes
  unfold decodeAudioData
  by_cases h : bytes.length % 2 = 0
  · rw [if_neg (by simp [h])]
    by_cases h2 : (int16OfBytes bytes).length / ch = 0
    · rw [if_pos h2]
      have hlt : bytes.length / 2 < ch := by
        rw [hlen] at h2
        exact (Nat.div_eq_zero_iff hch).mp h2
      refine ⟨iff_of_false (by simp [Except.isOk, Except.toBool]) (by omega), ?_⟩
      intro chans hchans
      exact absurd hchans (by simp)
    · rw [if_neg h2]
      have hge : ch ≤ bytes.length / 2 := by
        rw [hlen] at h2
        by_contra hcon
        push_neg at hcon
        exact h2 ((Nat.div_eq_zero_iff hch).mpr hcon)
      refine ⟨iff_of_true (by simp [Except.isOk, Except.toBool]) ⟨h, hge⟩, ?_⟩
      intro chans hchans
      simp only [Except.ok.injEq] at hchans
      subst hchans
      refine ⟨by simp, ?_⟩
      intro c hc
      simp only [List.mem_map, List.mem_range] at hc
      obtain ⟨channel, hchannel, rfl⟩ := hc
      refine ⟨by simp [int16OfBytes_length], ?_⟩
      intro q hq
      simp only [List.mem_map, List.mem_range] at hq
      obtain ⟨i, hi, rfl⟩ := hq
      obtain ⟨u1, u2⟩ :=
        getD_int16_bound (i * ch + channel) (int16OfBytes_bounds bytes hb)
      exact decodeSample_range u1 u2
  · rw [if_pos (by simpa using h)]
    refine ⟨iff_of_false (by simp [Except.isOk, Except.toBool]) (by omega), ?_⟩
    intro chans hchans
    exact absurd hchans (by simp)

/-- Witness for C7 (amended): a valid 2-byte mono frame decodes
successfully. -/
theorem decode_fails_iff_odd_witness :
    (0 : ℕ) < 1 ∧ (decodeAudioData [0, 128] 1).isOk = true := by
  have h := decode_fails_iff_odd [0, 128] 1 (by norm_num) (by decide)
  exact ⟨by norm_num, h.1.mpr ⟨rfl, by norm_num⟩⟩

/-! ### PlaybackScheduler lemmas -/

theorem enqueueAll_fast : ∀ (l : List (ℚ × ℚ)) (s : SchedState),
    fastArrivalB s l = true →
    enqueueAll s l =
      { nextStartTime := s.nextStartTime + (l.map Prod.snd).sum
        scheduled := s.scheduled ++ segsFrom s.nextStartTime (l.map Prod.snd) }
  | [], s, _ => by simp [enqueueAll, segsFrom]
  | (now, dur) :: rest, s, h => by
      simp only [fastArrivalB, Bool.and_eq_true, decide_eq_true_eq] at h
      obtain ⟨h1, h2⟩ := h
      have hmax : max now s.nextStartTime = s.nextStartTime := max_eq_right h1
      rw [enqueueAll, enqueueAll_fast rest _ h2]
      simp only [enqueue, hmax, List.map_cons, List.sum_cons, segsFrom,
        SchedState.mk.injEq]
      constructor
      · ring
      · simp

theorem segsFrom_getD : ∀ (ds : List ℚ) (t : ℚ) (n : ℕ), n < ds.length →
    ((segsFrom t ds).getD n (0, 0)).1 = t + (ds.take n).sum
  | [], _, n, h => absurd h (by simp)
  | d :: ds, t, 0, _ => by simp [segsFrom]
  | d :: ds, t, n + 1, h => by
      simp only [segsFrom, List.getD_cons_succ, List.take_succ_cons, List.sum_cons]
      rw [segsFrom_getD ds (t + d) n (by simpa using h)]
      ring

/-! ### C1 -/

/-- C1: a single `enqueue` schedules at `max(now, nextStartTime)` and
advances the cursor by the segment's duration; and over any run of
enqueues with no intervening flush, when every later arrival comes no
later than the standing cursor (arrivals faster than playback), the new
segments sit back to back: the n-th (0-indexed) added segment starts at
the first segment's start plus the sum of the previous durations, with
no gap and no overlap. -/
theorem enqueue_gapless (now1 d1 : ℚ) (rest : List (ℚ × ℚ)) (s0 : SchedState)
    (hfast : fastArrivalB (enqueue now1 d1 s0) rest = true) :
    (enqueue now1 d1 s0).scheduled
        = s0.scheduled ++ [(max now1 s0.nextStartTime, d1)] ∧
    (enqueue now1 d1 s0).nextStartTime = max now1 s0.nextStartTime + d1 ∧
    (enqueueAll (enqueue now1 d1 s0) rest).scheduled
        = s0.scheduled ++
            segsFrom (max now1 s0.nextStartTime) (d1 :: rest.map Prod.snd) ∧
    (enqueueAll (enqueue now1 d1 s0) rest).nextStartTime
        = max now1 s0.nextStartTime + (d1 :: rest.map Prod.snd).sum ∧
    ∀ n, n < (d1 :: rest.map Prod.snd).length →
      ((segsFrom (max now1 s0.nextStartTime) (d1 :: rest.map Prod.snd)).getD
          n (0, 0)).1
        = max now1 s0.nextStartTime + ((d1 :: rest.map Prod.snd).take n).sum := by
  rw [enqueueAll_fast rest _ hfast]
  refine ⟨rfl, rfl, ?_, ?_, ?_⟩
  · simp [enqueue, segsFrom, List.append_assoc]
  · simp [enqueue]
    ring
  · intro n hn
    exact segsFrom_getD _ _ n hn

/-- Witness for C1: the spec scenario — segments of durations 0.5 s,
0.3 s and 0.2 s enqueued from device time 0 on an empty queue start at
0, 0.5 and 0.8, and the cursor ends at 1. -/
theorem enqueue_gapless_witness :
    (enqueueAll (enqueue 0 (1/2) ⟨0, []⟩) [(1/10, 3/10), (1/5, 1/5)]).scheduled
        = [(0, 1/2), (1/2, 3/10), (4/5, 1/5)] ∧
    (enqueueAll (enqueue 0 (1/2) ⟨0, []⟩) [(1/10, 3/10), (1/5, 1/5)]).nextStartTime
        = 1 := by
  have h := enqueue_gapless 0 (1/2) [(1/10, 3/10), (1/5, 1/5)] ⟨0, []⟩
    (by norm_num [fastArrivalB, enqueue])
  constructor
  · rw [h.2.2.1]
    norm_num [segsFrom]
  · rw [h.2.2.2.1]
    norm_num

/-! ### C2 -/

/-- C2: `flush` issues a stop to every scheduled segment, clears the
set, and resets the cursor to the current device time; an `enqueue`
issued immediately afterwards therefore schedules its segment to start
at the current device time, not at the pre-flush cursor. -/
theorem flush_resets_timeline (now dur : ℚ) (s : SchedState) :
    (flush now s).2 = s.scheduled ∧
    (flush now s).1.scheduled = [] ∧
    (flush now s).1.nextStartTime = now ∧
    (enqueue now dur (flush now s).1).scheduled = [(now, dur)] ∧
    (enqueue now dur (flush now s).1).nextStartTime = now + dur := by
  refine ⟨rfl, rfl, rfl, ?_, ?_⟩ <;> simp [flush, enqueue]

/-! ### C8 -/

/-- C8: `stopAudio` is idempotent — after the first call the
scheduled-segment set is empty, and a second call observes the
already-released state, changes nothing, and issues no further stop
calls (so no error can arise from it). -/
theorem stopAudio_idempotent (s : AgentState) :
    (stopAudio s).1.sched.scheduled = [] ∧
    (stopAudio s).2 = (stopInputSource (stopProcessor (stopStream s))).sched.scheduled ∧
    stopAudio (stopAudio s).1 = ((stopAudio s).1, []) := by
  cases hs : s.stream <;> cases hp : s.processor <;> cases hi : s.inputSource <;>
    simp [stopAudio, stopStream, stopProcessor, stopInputSource, hs, hp, hi]

/-! ### C9 -/

/-- C9: calling `startSession` while the connection state is already
`CONNECTING` or `CONNECTED` is a no-op — the guard returns before the
session state, the capture pipeline or the playback timeline is
touched. -/
theorem start_guard_noop (s : AgentState)
    (h : s.connectionState = ConnectionState.CONNECTING ∨
         s.connectionState = ConnectionState.CONNECTED) :
    startSessionBegin s = s := by
  unfold startSessionBegin
  rw [if_pos h]

/-- Witness for C9 at a concrete connected state. -/
theorem start_guard_noop_witness :
    startSessionBegin
        ⟨ConnectionState.CONNECTED, none, none, none, true, true, true, ⟨0, []⟩⟩
      = ⟨ConnectionState.CONNECTED, none, none, none, true, true, true, ⟨0, []⟩⟩ :=
  start_guard_noop _ (Or.inr rfl)

/-! ### C6 -/

/-- C6: the claimed drop-while-muted / resume-on-unmute behaviour is
not implemented.  Both variants install `processor.onaudioprocess` once
at session start, and the closure captures that render's `isMuted`
constant; toggling mute mid-session re-renders with a new binding but
never touches the installed handler.  So in a session started unmuted,
a block delivered while the component state is muted is still
resampled, encoded and sent; dually, a session started muted never
resumes sending after unmuting. -/
theorem mute_stale_closure (block : List ℚ) (inputRate : ℕ)
    (rest : List (Bool × List ℚ)) :
    processBlocks false inputRate ((true, block) :: rest)
        = createPcmBlobRt block inputRate :: processBlocks false inputRate rest ∧
    processBlocks true inputRate ((false, block) :: rest)
        = processBlocks true inputRate rest := by
  constructor <;> rfl

/-! ### C3 -/

theorem flatMap_int16ToBytes_length : ∀ l : List ℤ,
    (l.flatMap int16ToBytes).length = 2 * l.length
  | [] => rfl
  | n :: rest => by
      simp only [List.flatMap_cons, List.length_append, List.length_cons,
        flatMap_int16ToBytes_length rest, int16ToBytes, List.length_nil]
      omega

theorem lerpResample_length (samples : List ℚ) (r t : ℕ) (hr : 0 < r) (ht : 0 < t) :
    (lerpResample samples r t).length
      = (⌈(samples.length : ℚ) / ((r : ℚ) / t)⌉).toNat := by
  unfold lerpResample
  by_cases h : r = t
  · rw [if_pos h]
    subst h
    have hq : ((r : ℚ) / r) = 1 := div_self (by positivity)
    rw [hq, div_one, Int.ceil_natCast, Int.toNat_natCast]
  · rw [if_neg h]
    dsimp only
    rw [List.length_map, List.length_range]

/-- C3: the resampler produces `⌈inputLength / (inputRate/targetRate)⌉`
output samples (each a linear interpolation of the two neighbouring
input samples, per its definition), so the two-argument `createPcmBlob`
emits `2 * ⌈inputLength / (inputRate/16000)⌉` PCM bytes; in particular a
4096-sample block at 48000 Hz resamples to 1366 samples and encodes to
a 2732-byte frame. -/
theorem resample_length (samples : List ℚ) (r t : ℕ) (hr : 0 < r) (ht : 0 < t) :
    (resample samples r t).length
        = (⌈(samples.length : ℚ) / ((r : ℚ) / t)⌉).toNat ∧
    (createPcmBlobRt samples r).data.length
        = 2 * (⌈(samples.length : ℚ) / ((r : ℚ) / ((16000 : ℕ) : ℚ))⌉).toNat ∧
    (samples.length = 4096 → r = 48000 →
      (resample samples r 16000).length = 1366 ∧
      (createPcmBlobRt samples r).data.length = 2732) := by
  have h16 : (0 : ℕ) < 16000 := by norm_num
  refine ⟨?_, ?_, ?_⟩
  · unfold resample
    rw [List.length_map, lerpResample_length samples r t hr ht]
  · unfold createPcmBlobRt resample
    rw [flatMap_int16ToBytes_length, List.length_map,
      lerpResample_length samples r 16000 hr h16]
  · intro h4 hr48
    subst hr48
    have hceil : ⌈(((4096 : ℕ) : ℚ)) / (((48000 : ℕ) : ℚ) / ((16000 : ℕ) : ℚ))⌉
        = 1366 := by
      norm_num [Int.ceil_eq_iff]
    constructor
    · unfold resample
      rw [List.length_map, lerpResample_length samples 48000 16000 hr h16, h4,
        hceil]
      rfl
    · unfold createPcmBlobRt resample
      rw [flatMap_int16ToBytes_length, List.length_map,
        lerpResample_length samples 48000 16000 hr h16, h4, hceil]
      rfl

/-- Witness for C3: the spec scenario block of 4096 zero samples at
48000 Hz. -/
theorem resample_length_witness :
    (resample (List.replicate 4096 0) 48000 16000).length = 1366 ∧
    (createPcmBlobRt (List.replicate 4096 0) 48000).data.length = 2732 := by
  have h := resample_length (List.replicate 4096 (0 : ℚ)) 48000 16000
    (by norm_num) (by norm_num)
  exact h.2.2 (List.length_replicate 4096 0) rfl

/-! ### C5 -/

theorem decodeAudioData_mono_ok (good : List ℕ) (hgood : good.length % 2 = 0)
    (hgood2 : 2 ≤ good.length) :
    decodeAudioData good 1
      = .ok [(List.range (int16OfBytes good).length).map
              (fun i => decodeSample ((int16OfBytes good).getD i 0))] := by
  unfold decodeAudioData
  rw [if_neg (by omega)]
  rw [if_neg (by rw [int16OfBytes_length]; omega)]
  simp [List.range_succ]

/-- C5: a malformed inbound audio frame (odd byte length, so the decode
throws) is caught, logged and dropped: the component state — connection
state, capture pipeline and playback timeline — is unchanged, and a
well-formed frame arriving afterwards is scheduled exactly as if the bad
frame had never arrived. -/
theorem malformed_frame_dropped (bad good : List ℕ) (now now2 : ℚ) (s : AgentState)
    (hbad : bad.length % 2 = 1) (hgood : good.length % 2 = 0)
    (hgood2 : 2 ≤ good.length) :
    (onAudioFrame bad now s).1 = s ∧
    (onAudioFrame bad now s).2.isSome = true ∧
    onAudioFrame good now2 (onAudioFrame bad now s).1 = onAudioFrame good now2 s ∧
    (onAudioFrame good now2 s).1.sched.scheduled
        = s.sched.scheduled ++
            [(max now2 s.sched.nextStartTime, ((good.length / 2 : ℕ) : ℚ) / 24000)] ∧
    (onAudioFrame good now2 s).2 = none := by
  have hbadDec : decodeAudioData bad 1
      = .error "RangeError: byte length is not a multiple of Int16 element size" := by
    unfold decodeAudioData
    rw [if_pos (by omega)]
  have h1 : onAudioFrame bad now s
      = (s, some "RangeError: byte length is not a multiple of Int16 element size") := by
    unfold onAudioFrame
    rw [hbadDec]
  have h2 : onAudioFrame good now2 s
      = ({ s with
            sched := enqueue now2 (((int16OfBytes good).length : ℚ) / 24000) s.sched },
         none) := by
    unfold onAudioFrame
    rw [decodeAudioData_mono_ok good hgood hgood2]
    simp
  refine ⟨by rw [h1], by rw [h1]; rfl, by rw [h1], ?_, by rw [h2]⟩
  rw [h2]
  simp only [enqueue]
  rw [int16OfBytes_length]

/-- Witness for C5: a 1-byte frame is dropped with the state intact,
and a following 2-byte frame schedules normally. -/
theorem malformed_frame_dropped_witness :
    (onAudioFrame [0] 0
        ⟨ConnectionState.CONNECTED, none, none, none, true, true, true, ⟨0, []⟩⟩).1
      = ⟨ConnectionState.CONNECTED, none, none, none, true, true, true, ⟨0, []⟩⟩ ∧
    (onAudioFrame [0, 0] 0
        ⟨ConnectionState.CONNECTED, none, none, none, true, true, true, ⟨0, []⟩⟩).1.sched.scheduled
      = [(0, (1 : ℚ) / 24000)] := by
  have h := malformed_frame_dropped [0] [0, 0] 0 0
    ⟨ConnectionState.CONNECTED, none, none, none, true, true, true, ⟨0, []⟩⟩ rfl rfl
    (by norm_num)
  refine ⟨h.1, ?_⟩
  rw [h.2.2.2.1]
  norm_num
